import Mathlib

/-!
Verification of `crates/bevy_ecs/src/storage/sparse_set.rs`.

Shallow embedding conventions:

* Keys (`I : SparseSetIndex`) are modelled by their integer projection
  `sparse_set_index() : usize`, i.e. by `Nat`.  All operations of the source
  only consult the key through this projection (plus `Clone`/`Eq`, which for
  the provided `impl_sparse_set_index!` types coincide with equality of the
  projection), so this loses nothing.
* `Vec<Option<V>>` becomes `List (Option V)`, `Vec<V>` becomes `List V`.
* `NonMaxUsize` is modelled by a plain `Nat` guarded at creation:
  `nonMaxNew n` is `some n` exactly when `n` differs from `usizeMax`,
  mirroring `NonMaxUsize::new`, whose `unwrap` is the only panic site of
  `SparseSet::insert` / `get_or_insert_with`.
* Operations that can panic (an `unwrap`, a `Vec::swap_remove` bounds check,
  the `len() - 1` underflow) or hit an `unsafe` `get_unchecked` whose
  precondition may fail return `Option`; `none` models the panic / violated
  precondition.  Pure in-bounds reads through `get_unchecked` that the
  structural invariant keeps in range are modelled with `List.getElem?`
  (`none` standing for the out-of-bounds case that the invariant excludes).
-/

/-- The `usize::MAX` sentinel that `NonMaxUsize` cannot represent (64-bit). -/
def usizeMax : Nat := 2 ^ 64 - 1

/-- Model of `NonMaxUsize::new`: `some n` iff `n` is not the sentinel. -/
def nonMaxNew (n : Nat) : Option Nat :=
  if n = usizeMax then none else some n

/-- Model of `SparseArray<I, V>`: a growable sequence of optional slots
indexed directly by the key's integer projection. -/
structure SparseArray (V : Type) where
  values : List (Option V)
deriving Repr, DecidableEq

namespace SparseArray

/-- Model of `SparseArray::new` (also `Default::default`). -/
def new (V : Type) : SparseArray V := ⟨[]⟩

/-- Model of `SparseArray::get` (line 56): `values.get(index).and_then(Option::as_ref)`. -/
def get (a : SparseArray V) (index : Nat) : Option V :=
  (a.values[index]?).bind id

/-- Model of `SparseArray::get_mut` (line 84): the lookup performed by
`values.get_mut(index).and_then(Option::as_mut)`; the value reached is the
same slot content `get` reaches. -/
def getMut (a : SparseArray V) (index : Nat) : Option V :=
  (a.values[index]?).bind id

/-- Model of `SparseArray::contains` (line 47):
`values.get(index).is_some_and(Option::is_some)`. -/
def contains (a : SparseArray V) (index : Nat) : Bool :=
  ((a.values[index]?).map Option.isSome).getD false

/-- Model of `SparseArray::insert` (line 72): grow with `None` padding via
`resize_with(index + 1, || None)` when `index >= len`, then occupy the slot. -/
def insert (a : SparseArray V) (index : Nat) (value : V) : SparseArray V :=
  let grown :=
    if a.values.length ≤ index then
      a.values ++ List.replicate (index + 1 - a.values.length) none
    else a.values
  ⟨grown.set index (some value)⟩

/-- Model of `SparseArray::remove` (line 93):
`values.get_mut(index).and_then(Option::take)` — returns the slot's old
content and leaves the slot empty (a no-op when absent or out of range). -/
def remove (a : SparseArray V) (index : Nat) : Option V × SparseArray V :=
  (a.get index, ⟨a.values.set index none⟩)

/-- Model of the write `*array.get_mut(index).unwrap() = value` used for the
back-pointer fixup in `SparseSet::remove` / `ComponentSparseSet::remove`:
`none` models the `unwrap` panic on an unoccupied slot. -/
def setOccupied (a : SparseArray V) (index : Nat) (value : V) :
    Option (SparseArray V) :=
  match a.get index with
  | none => none
  | some _ => some ⟨a.values.set index (some value)⟩

/-- Model of `SparseArray::clear` (line 99). -/
def clear (_a : SparseArray V) : SparseArray V := ⟨[]⟩

end SparseArray

/-- Model of `ImmutableSparseArray<I, V>`: fixed-length boxed slice of
optional slots. -/
structure ImmutableSparseArray (V : Type) where
  values : List (Option V)
deriving Repr, DecidableEq

namespace ImmutableSparseArray

/-- Model of `ImmutableSparseArray::get` (macro-generated, line 56). -/
def get (a : ImmutableSparseArray V) (index : Nat) : Option V :=
  (a.values[index]?).bind id

/-- Model of `ImmutableSparseArray::contains` (macro-generated, line 47). -/
def contains (a : ImmutableSparseArray V) (index : Nat) : Bool :=
  ((a.values[index]?).map Option.isSome).getD false

end ImmutableSparseArray

/-- Model of `SparseArray::into_immutable` (line 104): `into_boxed_slice`
preserves the element sequence. -/
def SparseArray.intoImmutable (a : SparseArray V) : ImmutableSparseArray V :=
  ⟨a.values⟩

/-- Model of `SparseSet<I, V>` (line 372): parallel `dense` values, `indices`
keys, and a `sparse` back-pointer table whose entries are `NonMaxUsize` dense
positions (modelled as `Nat`, kept below `usizeMax` at creation). -/
structure SparseSet (V : Type) where
  dense : List V
  indices : List Nat
  sparse : SparseArray Nat
deriving Repr, DecidableEq

/-- Model of `ImmutableSparseSet<I, V>` (line 381). -/
structure ImmutableSparseSet (V : Type) where
  dense : List V
  indices : List Nat
  sparse : ImmutableSparseArray Nat
deriving Repr, DecidableEq

/-- Model of `Vec::swap_remove(i)`: returns the element at `i` after moving
the last element into its place; `none` models the bounds-check panic. -/
def listSwapRemove (l : List α) (i : Nat) : Option (α × List α) :=
  match l[i]?, l.getLast? with
  | some v, some last => some (v, (l.set i last).dropLast)
  | _, _ => none

namespace SparseSet

/-- Model of `SparseSet::new` (line 462, also `Default` / `with_capacity`). -/
def new (V : Type) : SparseSet V := ⟨[], [], SparseArray.new Nat⟩

/-- Model of `SparseSet::len` (macro-generated, line 392). -/
def len (s : SparseSet V) : Nat := s.dense.length

/-- Model of `SparseSet::contains` (macro-generated, line 398). -/
def contains (s : SparseSet V) (index : Nat) : Bool := s.sparse.contains index

/-- Model of `SparseSet::get` (macro-generated, line 405): one indirection
through `sparse`, then `dense.get_unchecked(dense_index.get())`; the
out-of-range case of the unchecked read (excluded by the structural
invariant) is modelled as `none`. -/
def get (s : SparseSet V) (index : Nat) : Option V :=
  (s.sparse.get index).bind fun denseIndex => s.dense[denseIndex]?

/-- Model of `SparseSet::get_mut` (macro-generated, line 415): the same
lookup as `get`, reaching the same dense slot mutably. -/
def getMut (s : SparseSet V) (index : Nat) : Option V :=
  (s.sparse.get index).bind fun denseIndex => s.dense[denseIndex]?

/-- Model of `SparseSet::is_empty` (line 524). -/
def isEmpty (s : SparseSet V) : Bool := s.dense.length == 0

/-- Model of `SparseSet::insert` (line 490).  Present key: overwrite the
dense slot in place through `get_unchecked_mut`.  Absent key: record
`NonMaxUsize::new(dense.len()).unwrap()` in `sparse` (the `unwrap` panic is
`none`), push the key onto `indices` and the value onto `dense`. -/
def insert (s : SparseSet V) (index : Nat) (value : V) : Option (SparseSet V) :=
  match s.sparse.get index with
  | some denseIndex => some { s with dense := s.dense.set denseIndex value }
  | none =>
    match nonMaxNew s.dense.length with
    | none => none
    | some n =>
      some ⟨s.dense ++ [value], s.indices ++ [index], s.sparse.insert index n⟩

/-- Model of `SparseSet::get_or_insert_with` (line 506).  The producer
`func : Sigma` threads an explicit invocation state so that "invoked exactly
once" is visible: the returned state is `st` untouched when the key is
present and `(func st).2` (one application) when it is absent.  Returns the
value the returned `&mut V` reference denotes, the updated set, and the
producer state. -/
def getOrInsertWith (s : SparseSet V) (index : Nat) (func : S → V × S)
    (st : S) : Option (V × SparseSet V × S) :=
  match s.sparse.get index with
  | some denseIndex =>
    (s.dense[denseIndex]?).map fun v => (v, s, st)
  | none =>
    let value := (func st).1
    let denseIndex := s.dense.length
    match nonMaxNew denseIndex with
    | none => none
    | some n =>
      some (value,
        ⟨s.dense ++ [value], s.indices ++ [index], s.sparse.insert index n⟩,
        (func st).2)

/-- Model of `SparseSet::remove` (line 531): take the back-pointer out of
`sparse`; if present at `dense_index`, compute `is_last` from
`dense.len() - 1`, `swap_remove` both `dense` and `indices`, and unless the
removed slot was the last, redirect the back-pointer of the swapped-in key
(`indices[dense_index]` after the swap) to `dense_index` through
`get_mut(..).unwrap()`.  The outer `none` models the panics (swap-remove
bounds checks, the `unwrap`); the inner `Option V` is the return value. -/
def remove (s : SparseSet V) (index : Nat) : Option (Option V × SparseSet V) :=
  match s.sparse.remove index with
  | (none, sp) => some (none, { s with sparse := sp })
  | (some denseIndex, sp) =>
    let isLast := denseIndex = s.dense.length - 1
    match listSwapRemove s.dense denseIndex with
    | none => none
    | some (value, dense) =>
      match listSwapRemove s.indices denseIndex with
      | none => none
      | some (_, indices) =>
        if isLast then some (some value, ⟨dense, indices, sp⟩)
        else
          match indices[denseIndex]? with
          | none => none
          | some swappedIndex =>
            match sp.setOccupied swappedIndex denseIndex with
            | none => none
            | some sp2 => some (some value, ⟨dense, indices, sp2⟩)

/-- Model of `SparseSet::clear` (line 546). -/
def clear (_s : SparseSet V) : SparseSet V := ⟨[], [], ⟨[]⟩⟩

/-- Model of `SparseSet::into_immutable` (line 553): `into_boxed_slice` on
`dense` and `indices`, `into_immutable` on `sparse`. -/
def intoImmutable (s : SparseSet V) : ImmutableSparseSet V :=
  ⟨s.dense, s.indices, s.sparse.intoImmutable⟩

end SparseSet

namespace ImmutableSparseSet

/-- Model of `ImmutableSparseSet::len` (macro-generated, line 392). -/
def len (s : ImmutableSparseSet V) : Nat := s.dense.length

/-- Model of `ImmutableSparseSet::contains` (macro-generated, line 398). -/
def contains (s : ImmutableSparseSet V) (index : Nat) : Bool :=
  s.sparse.contains index

/-- Model of `ImmutableSparseSet::get` (macro-generated, line 405). -/
def get (s : ImmutableSparseSet V) (index : Nat) : Option V :=
  (s.sparse.get index).bind fun denseIndex => s.dense[denseIndex]?

end ImmutableSparseSet

/-- Structural invariant of a `SparseSet` (spec section 3): `dense` and
`indices` have equal length, the back-pointer of every stored key points at
its position, and every occupied back-pointer names the key stored at the
position it designates. -/
structure SparseSetWF (s : SparseSet V) : Prop where
  len_eq : s.dense.length = s.indices.length
  idx_to_sparse : ∀ j k, s.indices[j]? = some k → s.sparse.get k = some j
  sparse_to_idx : ∀ k j, s.sparse.get k = some j → s.indices[j]? = some k

/-- One mutation of the alphabet quantified over in the invariant claim:
`SparseSet::insert` or `SparseSet::remove`. -/
inductive SparseSetOp (V : Type) where
  | ins (index : Nat) (value : V)
  | rem (index : Nat)

/-- Apply one operation; `none` models a panic. -/
def SparseSet.applyOp (s : SparseSet V) : SparseSetOp V → Option (SparseSet V)
  | .ins k v => s.insert k v
  | .rem k => (s.remove k).map Prod.snd

/-- Apply a sequence of operations from left to right. -/
def SparseSet.applyOps (s : SparseSet V) :
    List (SparseSetOp V) → Option (SparseSet V)
  | [] => some s
  | op :: ops => (s.applyOp op).bind fun s2 => s2.applyOps ops

/-- Modelled from the spec: the dense `Column` collaborator of
`ComponentSparseSet` is not part of this file's source.  Per spec section 6
it stores, keyed by dense row position, the type-erased component value of
each row (plus tick and provenance cells, which the claims here do not
observe), and offers `len`, `swap_remove(row)` and
`swap_remove_and_forget(row) -> raw_handle` with swap-remove semantics.  It
is modelled as the list of per-row value handles. -/
structure Column (V : Type) where
  rows : List V
deriving Repr, DecidableEq

namespace Column

/-- Modelled from the spec: `Column::len()`. -/
def len (c : Column V) : Nat := c.rows.length

/-- Modelled from the spec: `Column::swap_remove_and_forget_unchecked(row)`
returns the row's value handle without dropping it and moves the last row
into its place; `none` models a violated occupancy precondition. -/
def swapRemoveAndForget (c : Column V) (row : Nat) : Option (V × Column V) :=
  (listSwapRemove c.rows row).map fun p => (p.1, ⟨p.2⟩)

/-- Modelled from the spec: `Column::swap_remove_unchecked(row)` drops the
row's value and moves the last row into its place. -/
def swapRemoveDrop (c : Column V) (row : Nat) : Option (Column V) :=
  (listSwapRemove c.rows row).map fun p => ⟨p.2⟩

end Column

/-- Model of `ComponentSparseSet` (line 116) in the
`not(debug_assertions)` configuration: `entities` stores only the
`EntityRow` (a `Nat`) of each dense row, generation assertions do not run,
and `sparse` maps entity rows to dense `TableRow` positions. -/
structure ComponentSparseSet (V : Type) where
  dense : Column V
  entities : List Nat
  sparse : SparseArray Nat
deriving Repr, DecidableEq

namespace ComponentSparseSet

/-- Model of `ComponentSparseSet::len` (line 148). -/
def len (s : ComponentSparseSet V) : Nat := s.dense.len

/-- Model of `ComponentSparseSet::contains` (line 197), non-debug branch. -/
def contains (s : ComponentSparseSet V) (entity : Nat) : Bool :=
  s.sparse.contains entity

/-- Model of `ComponentSparseSet::get` (line 216): one indirection through
`sparse`, then `dense.get_data_unchecked(dense_index)` (out-of-range case of
the unchecked read modelled as `none`). -/
def get (s : ComponentSparseSet V) (entity : Nat) : Option V :=
  (s.sparse.get entity).bind fun denseIndex => s.dense.rows[denseIndex]?

/-- Model of `ComponentSparseSet::remove_and_forget` (line 316): take the
back-pointer out of `sparse`; if present, `swap_remove` the entity list,
compute `is_last` from `dense.len() - 1`, `swap_remove_and_forget` the dense
row, and unless the removed row was the last, redirect the back-pointer of
the swapped-in entity (`entities[dense_index]` after the swap) to
`dense_index`.  Outer `none` models the panics; the inner `Option V` is the
returned raw handle. -/
def removeAndForget (s : ComponentSparseSet V) (entity : Nat) :
    Option (Option V × ComponentSparseSet V) :=
  match s.sparse.remove entity with
  | (none, sp) => some (none, { s with sparse := sp })
  | (some denseIndex, sp) =>
    match listSwapRemove s.entities denseIndex with
    | none => none
    | some (_, entities) =>
      let isLast := denseIndex = s.dense.len - 1
      match s.dense.swapRemoveAndForget denseIndex with
      | none => none
      | some (value, dense) =>
        if isLast then some (some value, ⟨dense, entities, sp⟩)
        else
          match entities[denseIndex]? with
          | none => none
          | some swappedEntity =>
            match sp.setOccupied swappedEntity denseIndex with
            | none => none
            | some sp2 => some (some value, ⟨dense, entities, sp2⟩)

/-- Model of `ComponentSparseSet::remove` (line 339): the same swap-remove
algorithm, dropping the value through `swap_remove_unchecked` and returning
whether the entity had a value. -/
def remove (s : ComponentSparseSet V) (entity : Nat) :
    Option (Bool × ComponentSparseSet V) :=
  match s.sparse.remove entity with
  | (none, sp) => some (false, { s with sparse := sp })
  | (some denseIndex, sp) =>
    match listSwapRemove s.entities denseIndex with
    | none => none
    | some (_, entities) =>
      let isLast := denseIndex = s.dense.len - 1
      match s.dense.swapRemoveDrop denseIndex with
      | none => none
      | some dense =>
        if isLast then some (true, ⟨dense, entities, sp⟩)
        else
          match entities[denseIndex]? with
          | none => none
          | some swappedEntity =>
            match sp.setOccupied swappedEntity denseIndex with
            | none => none
            | some sp2 => some (true, ⟨dense, entities, sp2⟩)

/-- View of a `ComponentSparseSet` as the generic `SparseSet` it refines:
dense rows as the dense values, entity rows as the keys. -/
def toSparseSet (s : ComponentSparseSet V) : SparseSet V :=
  ⟨s.dense.rows, s.entities, s.sparse⟩

end ComponentSparseSet

/-- Structural invariant of a `ComponentSparseSet` (spec section 3): the
generic sparse-dense invariant on dense rows, entity list and back-pointer
table. -/
def ComponentSparseSetWF (s : ComponentSparseSet V) : Prop :=
  SparseSetWF s.toSparseSet


theorem SparseArray.get_eq_getMut (a : SparseArray V) (i : Nat) : a.getMut i = a.get i := rfl

theorem SparseArray.contains_eq_isSome_get (a : SparseArray V) (i : Nat) :
    a.contains i = (a.get i).isSome := by
  unfold contains get
  cases a.values[i]? with
  | none => rfl
  | some o => cases o <;> rfl

theorem SparseArray.get_insert_self (a : SparseArray V) (i : Nat) (v : V) :
    (a.insert i v).get i = some v := by
  unfold insert get
  simp only
  split
  · rename_i h
    rw [List.getElem?_set_self]
    · rfl
    · simp only [List.length_append, List.length_replicate]
      omega
  · rename_i h
    rw [List.getElem?_set_self (by omega)]
    rfl

theorem SparseArray.get_insert_ne (a : SparseArray V) (i j : Nat) (v : V) (hne : j ≠ i) :
    (a.insert i v).get j = a.get j := by
  unfold insert get
  simp only
  rw [List.getElem?_set_ne (fun h => hne h.symm)]
  split
  · rename_i h
    rw [List.getElem?_append]
    split
    · rfl
    · rename_i h2
      rw [List.getElem?_replicate]
      rw [List.getElem?_eq_none (by omega)]
      split <;> rfl
  · rfl

theorem SparseArray.get_remove_self (a : SparseArray V) (i : Nat) :
    (a.remove i).2.get i = none := by
  unfold remove get
  simp only
  rcases Nat.lt_or_ge i a.values.length with h | h
  · rw [List.getElem?_set_self h]
    rfl
  · rw [List.getElem?_eq_none (by simpa using h)]
    rfl

theorem SparseArray.get_remove_ne (a : SparseArray V) (i j : Nat) (hne : j ≠ i) :
    (a.remove i).2.get j = a.get j := by
  unfold remove get
  simp only
  rw [List.getElem?_set_ne (fun h => hne h.symm)]

theorem SparseArray.fst_remove (a : SparseArray V) (i : Nat) :
    (a.remove i).1 = a.get i := rfl

theorem SparseArray.get_setOccupied_self (a : SparseArray V) (i : Nat) (v : V) (b : SparseArray V)
    (h : a.setOccupied i v = some b) : b.get i = some v := by
  unfold setOccupied at h
  split at h
  · exact absurd h (by simp)
  · rename_i w hw
    cases h
    unfold get at hw ⊢
    simp only
    have hlt : i < a.values.length := by
      by_contra hge
      rw [List.getElem?_eq_none (by omega)] at hw
      exact absurd hw (by simp)
    rw [List.getElem?_set_self hlt]
    rfl

theorem SparseArray.get_setOccupied_ne (a : SparseArray V) (i j : Nat) (v : V) (b : SparseArray V)
    (h : a.setOccupied i v = some b) (hne : j ≠ i) : b.get j = a.get j := by
  unfold setOccupied at h
  split at h
  · exact absurd h (by simp)
  · cases h
    unfold get
    simp only
    rw [List.getElem?_set_ne (fun h => hne h.symm)]

theorem SparseArray.setOccupied_isSome (a : SparseArray V) (i : Nat) (v : V)
    (h : (a.get i).isSome) : (a.setOccupied i v).isSome := by
  unfold setOccupied
  cases hg : a.get i with
  | none => rw [hg] at h; simp at h
  | some w => simp

theorem SparseArray.get_intoImmutable (a : SparseArray V) (i : Nat) :
    a.intoImmutable.get i = a.get i := rfl

theorem SparseArray.contains_intoImmutable (a : SparseArray V) (i : Nat) :
    a.intoImmutable.contains i = a.contains i := rfl

theorem listSwapRemove_eq_none (l : List α) (i : Nat) (h : l.length ≤ i) :
    listSwapRemove l i = none := by
  unfold listSwapRemove
  rw [List.getElem?_eq_none h]

theorem listSwapRemove_spec (l : List α) (i : Nat) (h : i < l.length) :
    ∃ v last l2, l[i]? = some v ∧ l[l.length - 1]? = some last ∧
      listSwapRemove l i = some (v, l2) ∧ l2.length = l.length - 1 ∧
      ∀ j, l2[j]? = if j < l.length - 1 then
          (if j = i then some last else l[j]?) else none := by
  have h0 : l.length - 1 < l.length := by omega
  refine ⟨l[i], l[l.length - 1], (l.set i (l[l.length - 1])).dropLast,
    List.getElem?_eq_getElem h, List.getElem?_eq_getElem h0, ?_, ?_, ?_⟩
  · unfold listSwapRemove
    rw [List.getElem?_eq_getElem h, List.getLast?_eq_getElem?,
      List.getElem?_eq_getElem h0]
  · simp only [List.length_dropLast, List.length_set]
  · intro j
    rw [List.dropLast_eq_take, List.length_set, List.getElem?_take]
    split
    · rename_i hj
      rw [List.getElem?_set]
      by_cases hij : j = i
      · subst hij
        simp [h]
      · rw [if_neg (fun hh => hij hh.symm), if_neg hij]
    · rfl

theorem SparseSetWF.idx_lt (hwf : SparseSetWF s) (hk : s.sparse.get k = some j) :
    j < s.dense.length := by
  have hidx := hwf.sparse_to_idx k j hk
  obtain ⟨hlt, -⟩ := List.getElem?_eq_some.mp hidx
  rw [hwf.len_eq]
  exact hlt

theorem SparseSet.remove_present_spec (s : SparseSet V) (hwf : SparseSetWF s)
    (k j : Nat) (hk : s.sparse.get k = some j) :
    ∃ v last kLast s2,
      s.dense[j]? = some v ∧
      s.dense[s.dense.length - 1]? = some last ∧
      s.indices[s.dense.length - 1]? = some kLast ∧
      s.remove k = some (some v, s2) ∧
      s2.dense.length = s.dense.length - 1 ∧
      s2.indices.length = s.dense.length - 1 ∧
      (∀ j2, s2.dense[j2]? = if j2 < s.dense.length - 1 then
          (if j2 = j then some last else s.dense[j2]?) else none) ∧
      (∀ j2, s2.indices[j2]? = if j2 < s.dense.length - 1 then
          (if j2 = j then some kLast else s.indices[j2]?) else none) ∧
      s2.sparse.get k = none ∧
      (j ≠ s.dense.length - 1 → s2.sparse.get kLast = some j) ∧
      (∀ k2, k2 ≠ k → k2 ≠ kLast → s2.sparse.get k2 = s.sparse.get k2) ∧
      (j = s.dense.length - 1 → kLast = k ∧ s2.sparse = (s.sparse.remove k).2) := by
  have hidx : s.indices[j]? = some k := hwf.sparse_to_idx k j hk
  obtain ⟨hjlt', -⟩ := List.getElem?_eq_some.mp hidx
  have hjlt : j < s.dense.length := by rw [hwf.len_eq]; exact hjlt'
  obtain ⟨v, last, dense2, hdv, hdlast, hdsw, hdlen, hdget⟩ :=
    listSwapRemove_spec s.dense j hjlt
  obtain ⟨kj, kLast, idx2, hiv, hilast, hisw, hilen, higet⟩ :=
    listSwapRemove_spec s.indices j hjlt'
  rw [← hwf.len_eq] at hilast higet hilen
  have hklast_sparse : s.sparse.get kLast = some (s.dense.length - 1) :=
    hwf.idx_to_sparse _ _ hilast
  by_cases hcase : j = s.dense.length - 1
  · have hkk : kLast = k := by
      rw [hcase] at hidx
      rw [hidx] at hilast
      exact (Option.some_inj.mp hilast).symm
    refine ⟨v, last, kLast, ⟨dense2, idx2, (s.sparse.remove k).2⟩,
      hdv, hdlast, hilast, ?_, hdlen, hilen, hdget, higet, ?_, ?_, ?_, ?_⟩
    · show (match s.sparse.remove k with
        | (none, sp) => some (none, { s with sparse := sp })
        | (some denseIndex, sp) => _) = _
      simp only [SparseArray.remove, SparseArray.fst_remove, hk]
      rw [hdsw, hisw]
      simp only [if_pos hcase]
    · exact SparseArray.get_remove_self s.sparse k
    · intro hne; exact absurd hcase hne
    · intro k2 hk2 _
      exact SparseArray.get_remove_ne s.sparse k k2 hk2
    · intro _; exact ⟨hkk, rfl⟩
  · have hklast_ne : kLast ≠ k := by
      intro he
      rw [he, hk] at hklast_sparse
      exact hcase (Option.some_inj.mp hklast_sparse)
    have hspk : (s.sparse.remove k).2.get kLast = s.sparse.get kLast :=
      SparseArray.get_remove_ne s.sparse k kLast hklast_ne
    have hso : ((s.sparse.remove k).2.setOccupied kLast j).isSome := by
      apply SparseArray.setOccupied_isSome
      rw [hspk, hklast_sparse]
      rfl
    obtain ⟨sp2, hsp2⟩ := Option.isSome_iff_exists.mp hso
    have hij : idx2[j]? = some kLast := by
      rw [higet, if_pos (by omega), if_pos rfl]
    refine ⟨v, last, kLast, ⟨dense2, idx2, sp2⟩,
      hdv, hdlast, hilast, ?_, hdlen, hilen, hdget, higet, ?_, ?_, ?_, ?_⟩
    · show (match s.sparse.remove k with
        | (none, sp) => some (none, { s with sparse := sp })
        | (some denseIndex, sp) => _) = _
      simp only [SparseArray.remove, SparseArray.fst_remove, hk]
      rw [hdsw, hisw]
      have hsp2' : ({ values := s.sparse.values.set k none } :
          SparseArray Nat).setOccupied kLast j = some sp2 := hsp2
      simp only [if_neg hcase, hij, hsp2']
    · rw [SparseArray.get_setOccupied_ne _ _ _ _ _ hsp2 (Ne.symm hklast_ne)]
      exact SparseArray.get_remove_self s.sparse k
    · intro _
      exact SparseArray.get_setOccupied_self _ _ _ _ hsp2
    · intro k2 hk2 hk2L
      rw [SparseArray.get_setOccupied_ne _ _ _ _ _ hsp2 hk2L]
      exact SparseArray.get_remove_ne s.sparse k k2 hk2
    · intro he; exact absurd he hcase

theorem SparseSet.remove_absent_spec (s : SparseSet V) (k : Nat)
    (hk : s.sparse.get k = none) :
    s.remove k = some (none, ⟨s.dense, s.indices, (s.sparse.remove k).2⟩) := by
  show (match s.sparse.remove k with
    | (none, sp) => some (none, { s with sparse := sp })
    | (some denseIndex, sp) => _) = _
  simp only [SparseArray.remove, hk]

theorem SparseSet.remove_isSome (s : SparseSet V) (hwf : SparseSetWF s) (k : Nat) :
    (s.remove k).isSome := by
  cases hk : s.sparse.get k with
  | none => rw [s.remove_absent_spec k hk]; rfl
  | some j =>
    obtain ⟨v, last, kLast, s2, -, -, -, hrm, -⟩ := s.remove_present_spec hwf k j hk
    rw [hrm]; rfl

theorem SparseSet.wf_remove (s : SparseSet V) (hwf : SparseSetWF s) (k : Nat)
    (r : Option V) (s2 : SparseSet V) (h : s.remove k = some (r, s2)) :
    SparseSetWF s2 := by
  cases hk : s.sparse.get k with
  | none =>
    rw [s.remove_absent_spec k hk] at h
    simp only [Option.some_inj, Prod.mk.injEq] at h
    obtain ⟨-, rfl⟩ := h
    refine ⟨hwf.len_eq, ?_, ?_⟩
    · intro j2 k2 hj2
      have hbase := hwf.idx_to_sparse j2 k2 hj2
      have hne : k2 ≠ k := fun he => by rw [he, hk] at hbase; cases hbase
      show (s.sparse.remove k).2.get k2 = some j2
      rw [SparseArray.get_remove_ne _ _ _ hne]
      exact hbase
    · intro k2 j2 h2
      have h2' : (s.sparse.remove k).2.get k2 = some j2 := h2
      by_cases he : k2 = k
      · rw [he, SparseArray.get_remove_self] at h2'
        cases h2'
      · rw [SparseArray.get_remove_ne _ _ _ he] at h2'
        exact hwf.sparse_to_idx _ _ h2'
  | some j =>
    have hjlt : j < s.dense.length := hwf.idx_lt hk
    have hidx : s.indices[j]? = some k := hwf.sparse_to_idx k j hk
    obtain ⟨v, last, kLast, s2', hdv, hdlast, hilast, hrm, hdlen, hilen, hdget,
      higet, hspk, hfix, hframe, hlastc⟩ := s.remove_present_spec hwf k j hk
    rw [hrm] at h
    simp only [Option.some_inj, Prod.mk.injEq] at h
    obtain ⟨-, rfl⟩ := h
    have hklast_sparse : s.sparse.get kLast = some (s.dense.length - 1) :=
      hwf.idx_to_sparse _ _ hilast
    refine ⟨by rw [hdlen, hilen], ?_, ?_⟩
    · intro j2 k2 hj2
      rw [higet] at hj2
      by_cases hb : j2 < s.dense.length - 1
      · rw [if_pos hb] at hj2
        by_cases hjj : j2 = j
        · rw [if_pos hjj] at hj2
          cases hj2
          subst hjj
          exact hfix (by omega)
        · rw [if_neg hjj] at hj2
          have hbase := hwf.idx_to_sparse j2 k2 hj2
          have hne : k2 ≠ k := by
            intro he
            rw [he, hk] at hbase
            exact hjj (Option.some_inj.mp hbase).symm
          have hneL : k2 ≠ kLast := by
            intro he
            rw [he, hklast_sparse] at hbase
            have hj2eq := Option.some_inj.mp hbase
            omega
          rw [hframe k2 hne hneL]
          exact hbase
      · rw [if_neg hb] at hj2
        cases hj2
    · intro k2 j2 h2
      by_cases he : k2 = k
      · rw [he, hspk] at h2
        cases h2
      · by_cases heL : k2 = kLast
        · subst heL
          have hjne : j ≠ s.dense.length - 1 := by
            intro hj
            exact he (hlastc hj).1
          have := hfix hjne
          rw [this] at h2
          cases h2
          rw [higet, if_pos (by omega), if_pos rfl]
        · rw [hframe k2 he heL] at h2
          have hbase := hwf.sparse_to_idx _ _ h2
          obtain ⟨hj2lt, -⟩ := List.getElem?_eq_some.mp hbase
          rw [← hwf.len_eq] at hj2lt
          have hj2j : j2 ≠ j := by
            intro hjj
            rw [hjj, hidx] at hbase
            exact he (Option.some_inj.mp hbase).symm
          have hj2L : j2 ≠ s.dense.length - 1 := by
            intro hjj
            rw [hjj, hilast] at hbase
            exact heL (Option.some_inj.mp hbase).symm
          rw [higet, if_pos (by omega), if_neg hj2j]
          exact hbase

theorem SparseSet.get_after_remove_removed (s : SparseSet V) (hwf : SparseSetWF s)
    (k : Nat) (r : Option V) (s2 : SparseSet V) (h : s.remove k = some (r, s2)) :
    s2.sparse.get k = none := by
  cases hk : s.sparse.get k with
  | none =>
    rw [s.remove_absent_spec k hk] at h
    simp only [Option.some_inj, Prod.mk.injEq] at h
    obtain ⟨-, rfl⟩ := h
    exact SparseArray.get_remove_self s.sparse k
  | some j =>
    obtain ⟨v, last, kLast, s2', -, -, -, hrm, -, -, -, -, hspk, -, -, -⟩ :=
      s.remove_present_spec hwf k j hk
    rw [hrm] at h
    simp only [Option.some_inj, Prod.mk.injEq] at h
    obtain ⟨-, rfl⟩ := h
    exact hspk

theorem SparseSet.get_remove_frame (s : SparseSet V) (hwf : SparseSetWF s)
    (k : Nat) (r : Option V) (s2 : SparseSet V) (h : s.remove k = some (r, s2)) :
    ∀ k2, k2 ≠ k → s2.get k2 = s.get k2 := by
  intro k2 hne
  cases hk : s.sparse.get k with
  | none =>
    rw [s.remove_absent_spec k hk] at h
    simp only [Option.some_inj, Prod.mk.injEq] at h
    obtain ⟨-, rfl⟩ := h
    show ((s.sparse.remove k).2.get k2).bind _ = _
    rw [SparseArray.get_remove_ne _ _ _ hne]
    rfl
  | some j =>
    have hjlt : j < s.dense.length := hwf.idx_lt hk
    have hidx : s.indices[j]? = some k := hwf.sparse_to_idx k j hk
    obtain ⟨v, last, kLast, s2', hdv, hdlast, hilast, hrm, hdlen, hilen, hdget,
      higet, hspk, hfix, hframe, hlastc⟩ := s.remove_present_spec hwf k j hk
    rw [hrm] at h
    simp only [Option.some_inj, Prod.mk.injEq] at h
    obtain ⟨-, rfl⟩ := h
    have hklast_sparse : s.sparse.get kLast = some (s.dense.length - 1) :=
      hwf.idx_to_sparse _ _ hilast
    by_cases heL : k2 = kLast
    · subst heL
      by_cases hcase : j = s.dense.length - 1
      · exact absurd (hlastc hcase).1 hne
      · unfold get
        rw [hfix hcase, hklast_sparse]
        simp only [Option.some_bind]
        rw [hdget, if_pos (by omega), if_pos rfl, hdlast]
    · unfold get
      rw [hframe k2 hne heL]
      cases hg : s.sparse.get k2 with
      | none => rfl
      | some j2 =>
        have hbase := hwf.sparse_to_idx _ _ hg
        obtain ⟨hj2lt, -⟩ := List.getElem?_eq_some.mp hbase
        rw [← hwf.len_eq] at hj2lt
        have hj2j : j2 ≠ j := by
          intro hjj
          rw [hjj, hidx] at hbase
          exact hne (Option.some_inj.mp hbase).symm
        have hj2L : j2 ≠ s.dense.length - 1 := by
          intro hjj
          rw [hjj, hilast] at hbase
          exact heL (Option.some_inj.mp hbase).symm
        simp only [Option.some_bind]
        rw [hdget, if_pos (by omega), if_neg hj2j]

theorem SparseSet.insert_present_spec (s : SparseSet V) (k j : Nat)
    (hk : s.sparse.get k = some j) (v : V) :
    s.insert k v = some ⟨s.dense.set j v, s.indices, s.sparse⟩ := by
  unfold insert
  rw [hk]

theorem SparseSet.insert_absent_spec (s : SparseSet V) (k : Nat)
    (hk : s.sparse.get k = none) (v : V) (hlen : s.dense.length ≠ usizeMax) :
    s.insert k v =
      some ⟨s.dense ++ [v], s.indices ++ [k],
        s.sparse.insert k s.dense.length⟩ := by
  unfold insert nonMaxNew
  rw [hk, if_neg hlen]

theorem SparseSet.insert_overflow (s : SparseSet V) (k : Nat)
    (hk : s.sparse.get k = none) (v : V) (hlen : s.dense.length = usizeMax) :
    s.insert k v = none := by
  unfold insert nonMaxNew
  rw [hk, if_pos hlen]

theorem SparseSet.wf_insert (s : SparseSet V) (hwf : SparseSetWF s) (k : Nat)
    (v : V) (s2 : SparseSet V) (h : s.insert k v = some s2) : SparseSetWF s2 := by
  cases hk : s.sparse.get k with
  | some j =>
    rw [s.insert_present_spec k j hk v] at h
    obtain rfl := Option.some_inj.mp h
    refine ⟨?_, hwf.idx_to_sparse, hwf.sparse_to_idx⟩
    show (s.dense.set j v).length = s.indices.length
    rw [List.length_set]
    exact hwf.len_eq
  | none =>
    by_cases hlen : s.dense.length = usizeMax
    · rw [s.insert_overflow k hk v hlen] at h
      cases h
    · rw [s.insert_absent_spec k hk v hlen] at h
      obtain rfl := Option.some_inj.mp h
      refine ⟨?_, ?_, ?_⟩
      · show (s.dense ++ [v]).length = (s.indices ++ [k]).length
        simp only [List.length_append, List.length_singleton, hwf.len_eq]
      · intro j2 k2 hj2
        show (s.sparse.insert k s.dense.length).get k2 = some j2
        have hj2' : (s.indices ++ [k])[j2]? = some k2 := hj2
        rw [List.getElem?_append] at hj2'
        split at hj2'
        · rename_i hlt
          have hbase := hwf.idx_to_sparse j2 k2 hj2'
          have hne : k2 ≠ k := by
            intro he
            rw [he, hk] at hbase
            cases hbase
          rw [SparseArray.get_insert_ne _ _ _ _ hne]
          exact hbase
        · rename_i hge
          have hlt1 : j2 - s.indices.length < 1 := by
            by_contra hc
            rw [List.getElem?_eq_none (by simpa using by omega)] at hj2'
            cases hj2'
          have hj2len : j2 = s.indices.length := by omega
          rw [show j2 - s.indices.length = 0 by omega] at hj2'
          have hk2 : k2 = k := by
            have : some k = some k2 := hj2'
            exact (Option.some_inj.mp this).symm
          rw [hk2, SparseArray.get_insert_self, hj2len, hwf.len_eq]
      · intro k2 j2 h2
        have h2' : (s.sparse.insert k s.dense.length).get k2 = some j2 := h2
        show (s.indices ++ [k])[j2]? = some k2
        by_cases he : k2 = k
        · rw [he, SparseArray.get_insert_self] at h2'
          obtain rfl := Option.some_inj.mp h2'
          rw [he, hwf.len_eq]
          exact List.getElem?_concat_length s.indices k
        · rw [SparseArray.get_insert_ne _ _ _ _ he] at h2'
          have hbase := hwf.sparse_to_idx _ _ h2'
          obtain ⟨hlt, -⟩ := List.getElem?_eq_some.mp hbase
          rw [List.getElem?_append, if_pos hlt]
          exact hbase

theorem SparseSet.get_insert_present_frame (s : SparseSet V) (hwf : SparseSetWF s)
    (k j : Nat) (hk : s.sparse.get k = some j) (v : V) :
    ∀ k2, k2 ≠ k →
      (⟨s.dense.set j v, s.indices, s.sparse⟩ : SparseSet V).get k2 = s.get k2 := by
  intro k2 hne
  unfold get
  simp only
  cases hg : s.sparse.get k2 with
  | none => rfl
  | some j2 =>
    have hbase := hwf.sparse_to_idx _ _ hg
    have hidx := hwf.sparse_to_idx _ _ hk
    have hj2j : j2 ≠ j := by
      intro hjj
      rw [hjj, hidx] at hbase
      exact hne (Option.some_inj.mp hbase).symm
    simp only [Option.some_bind]
    exact List.getElem?_set_ne hj2j.symm

theorem SparseSet.get_insert_absent (s : SparseSet V) (k : Nat)
    (hk : s.sparse.get k = none) (v : V) (hlen : s.dense.length ≠ usizeMax)
    (s2 : SparseSet V) (h : s.insert k v = some s2) : s2.get k = some v := by
  rw [s.insert_absent_spec k hk v hlen] at h
  obtain rfl := Option.some_inj.mp h
  unfold get
  simp only
  rw [SparseArray.get_insert_self]
  simp only [Option.some_bind]
  exact List.getElem?_concat_length s.dense v

theorem SparseSet.getOrInsertWith_present_spec (s : SparseSet V)
    (hwf : SparseSetWF s) (k j : Nat) (hk : s.sparse.get k = some j)
    (func : S → V × S) (st : S) :
    ∃ v, s.dense[j]? = some v ∧ s.getOrInsertWith k func st = some (v, s, st) := by
  have hjlt : j < s.dense.length := hwf.idx_lt hk
  refine ⟨s.dense[j], List.getElem?_eq_getElem hjlt, ?_⟩
  unfold getOrInsertWith
  rw [hk]
  show Option.map (fun v => (v, s, st)) s.dense[j]? = _
  rw [List.getElem?_eq_getElem hjlt]
  rfl

theorem SparseSet.getOrInsertWith_absent_spec (s : SparseSet V) (k : Nat)
    (hk : s.sparse.get k = none) (func : S → V × S) (st : S)
    (hlen : s.dense.length ≠ usizeMax) :
    s.getOrInsertWith k func st = some ((func st).1,
      ⟨s.dense ++ [(func st).1], s.indices ++ [k],
        s.sparse.insert k s.dense.length⟩, (func st).2) := by
  unfold getOrInsertWith nonMaxNew
  rw [hk]
  simp only [if_neg hlen]

theorem SparseSet.wf_new : SparseSetWF (SparseSet.new V) := by
  refine ⟨rfl, ?_, ?_⟩
  · intro j k hj
    cases hj
  · intro k j h
    cases h

theorem SparseSet.wf_applyOp (s : SparseSet V) (hwf : SparseSetWF s)
    (op : SparseSetOp V) (s2 : SparseSet V) (h : s.applyOp op = some s2) :
    SparseSetWF s2 := by
  cases op with
  | ins k v => exact s.wf_insert hwf k v s2 h
  | rem k =>
    simp only [applyOp] at h
    cases hr : s.remove k with
    | none => rw [hr] at h; cases h
    | some p =>
      rw [hr] at h
      obtain rfl := Option.some_inj.mp h
      exact s.wf_remove hwf k p.1 p.2 (by rw [hr])

theorem SparseSet.wf_applyOps (s : SparseSet V) (hwf : SparseSetWF s)
    (ops : List (SparseSetOp V)) (s2 : SparseSet V)
    (h : s.applyOps ops = some s2) : SparseSetWF s2 := by
  induction ops generalizing s with
  | nil =>
    unfold applyOps at h
    obtain rfl := Option.some_inj.mp h
    exact hwf
  | cons op ops ih =>
    unfold applyOps at h
    cases ho : s.applyOp op with
    | none => rw [ho] at h; cases h
    | some smid =>
      rw [ho] at h
      exact ih smid (s.wf_applyOp hwf op smid ho) h

theorem ComponentSparseSet.removeAndForget_eq_toSparseSet
    (s : ComponentSparseSet V) (e : Nat) :
    s.removeAndForget e = (s.toSparseSet.remove e).map
      fun p => (p.1, ⟨⟨p.2.dense⟩, p.2.indices, p.2.sparse⟩) := by
  unfold removeAndForget SparseSet.remove toSparseSet Column.swapRemoveAndForget
    Column.len
  simp only [SparseArray.remove]
  cases hg : s.sparse.get e with
  | none => rfl
  | some i =>
    cases hse : listSwapRemove s.entities i with
    | none =>
      cases hsd : listSwapRemove s.dense.rows i with
      | none => simp only [hse, hsd, Option.map_none']
      | some pd => simp only [hse, hsd, Option.map_some', Option.map_none']
    | some pe =>
      obtain ⟨ke, ents⟩ := pe
      cases hsd : listSwapRemove s.dense.rows i with
      | none => simp only [hse, hsd, Option.map_none']
      | some pd =>
        obtain ⟨v, rows2⟩ := pd
        by_cases hL : i = s.dense.rows.length - 1
        · simp only [hse, hsd, Option.map_some', if_pos hL]
        · simp only [hse, hsd, Option.map_some', if_neg hL]
          cases hent : ents[i]? with
          | none => rfl
          | some swapped =>
            cases hso : (⟨s.sparse.values.set e none⟩ :
                SparseArray Nat).setOccupied swapped i with
            | none =>
              simp only [hent, hso]
              rfl
            | some sp2 =>
              simp only [hent, hso]
              rfl

theorem ComponentSparseSet.remove_eq_toSparseSet
    (s : ComponentSparseSet V) (e : Nat) :
    s.remove e = (s.toSparseSet.remove e).map
      fun p => (p.1.isSome, ⟨⟨p.2.dense⟩, p.2.indices, p.2.sparse⟩) := by
  unfold remove SparseSet.remove toSparseSet Column.swapRemoveDrop Column.len
  simp only [SparseArray.remove]
  cases hg : s.sparse.get e with
  | none => rfl
  | some i =>
    cases hse : listSwapRemove s.entities i with
    | none =>
      cases hsd : listSwapRemove s.dense.rows i with
      | none => simp only [hse, hsd, Option.map_none']
      | some pd => simp only [hse, hsd, Option.map_some', Option.map_none']
    | some pe =>
      obtain ⟨ke, ents⟩ := pe
      cases hsd : listSwapRemove s.dense.rows i with
      | none => simp only [hse, hsd, Option.map_none']
      | some pd =>
        obtain ⟨v, rows2⟩ := pd
        by_cases hL : i = s.dense.rows.length - 1
        · simp only [hse, hsd, Option.map_some', if_pos hL]
          rfl
        · simp only [hse, hsd, Option.map_some', if_neg hL]
          cases hent : ents[i]? with
          | none => rfl
          | some swapped =>
            cases hso : (⟨s.sparse.values.set e none⟩ :
                SparseArray Nat).setOccupied swapped i with
            | none =>
              simp only [hent, hso]
              rfl
            | some sp2 =>
              simp only [hent, hso]
              rfl

theorem ComponentSparseSet.get_eq_toSparseSet (s : ComponentSparseSet V)
    (e : Nat) : s.get e = s.toSparseSet.get e := rfl

theorem ComponentSparseSet.remove_spec (s : ComponentSparseSet V)
    (hwf : ComponentSparseSetWF s) (e : Nat) :
    ∃ s2 : ComponentSparseSet V,
      s.remove e = some ((s.sparse.get e).isSome, s2) ∧
      s.removeAndForget e = some (s.get e, s2) ∧
      (∀ e2, e2 ≠ e → s2.get e2 = s.get e2) ∧
      s2.sparse.get e = none ∧
      (∀ i, s.sparse.get e = some i →
        s2.dense.rows.length = s.dense.rows.length - 1 ∧
        s2.entities.length = s.dense.rows.length - 1 ∧
        (∀ j2, s2.dense.rows[j2]? = if j2 < s.dense.rows.length - 1 then
          (if j2 = i then s.dense.rows[s.dense.rows.length - 1]?
            else s.dense.rows[j2]?) else none) ∧
        (∀ j2, s2.entities[j2]? = if j2 < s.dense.rows.length - 1 then
          (if j2 = i then s.entities[s.dense.rows.length - 1]?
            else s.entities[j2]?) else none) ∧
        (i ≠ s.dense.rows.length - 1 → ∀ eL,
          s.entities[s.dense.rows.length - 1]? = some eL →
          s2.sparse.get eL = some i)) := by
  cases hk : s.sparse.get e with
  | none =>
    have habs := s.toSparseSet.remove_absent_spec e hk
    refine ⟨⟨s.dense, s.entities, (s.sparse.remove e).2⟩, ?_, ?_, ?_, ?_, ?_⟩
    · rw [s.remove_eq_toSparseSet e, habs]
      rfl
    · rw [s.removeAndForget_eq_toSparseSet e, habs,
        show s.get e = none by unfold get; rw [hk]; rfl]
      rfl
    · intro e2 hne
      show ((s.sparse.remove e).2.get e2).bind _ = _
      rw [SparseArray.get_remove_ne _ _ _ hne]
      rfl
    · exact SparseArray.get_remove_self s.sparse e
    · intro i hi
      cases hi
  | some i =>
    obtain ⟨v, last, kLast, t2, hdv, hdlast, hilast, hrm, hdlen, hilen, hdget,
      higet, hspk, hfix, hframe, hlastc⟩ :=
      s.toSparseSet.remove_present_spec hwf e i hk
    refine ⟨⟨⟨t2.dense⟩, t2.indices, t2.sparse⟩, ?_, ?_, ?_, ?_, ?_⟩
    · rw [s.remove_eq_toSparseSet e, hrm]
      rfl
    · rw [s.removeAndForget_eq_toSparseSet e, hrm,
        show s.get e = some v by unfold get; rw [hk]; exact hdv]
      rfl
    · intro e2 hne
      have hfr := s.toSparseSet.get_remove_frame hwf e (some v) t2 hrm e2 hne
      show t2.get e2 = s.toSparseSet.get e2
      exact hfr
    · exact hspk
    · intro i2 hi2
      obtain rfl := Option.some_inj.mp hi2
      refine ⟨hdlen, hilen, ?_, ?_, ?_⟩
      · intro j2
        rw [show s.dense.rows[s.dense.rows.length - 1]? = some last from hdlast]
        exact hdget j2
      · intro j2
        rw [show s.entities[s.dense.rows.length - 1]? = some kLast from hilast]
        exact higet j2
      · intro hne eL heL
        have h1 : s.entities[s.dense.rows.length - 1]? = some kLast := hilast
        rw [heL] at h1
        obtain rfl := Option.some_inj.mp h1
        exact hfix hne

theorem SparseArray.remove_absent_noop (a : SparseArray V) (k : Nat)
    (h : a.get k = none) : (a.remove k).2 = a := by
  have hv : a.values.set k none = a.values := by
    apply List.ext_getElem?
    intro n
    by_cases hn : k = n
    · subst hn
      cases hnk : a.values[k]? with
      | none =>
        have hlen : a.values.length ≤ k := by
          by_contra hc
          rw [List.getElem?_eq_getElem (by omega)] at hnk
          cases hnk
        rw [List.getElem?_set, if_pos rfl, if_neg (by omega)]
      | some o =>
        have hlt : k < a.values.length := by
          by_contra hc
          rw [List.getElem?_eq_none (by omega)] at hnk
          cases hnk
        have ho : o = none := by
          unfold get at h
          rw [hnk] at h
          exact h
        rw [List.getElem?_set, if_pos rfl, if_pos hlt, ho]
    · rw [List.getElem?_set_ne hn]
  show (⟨a.values.set k none⟩ : SparseArray V) = a
  rw [hv]

/-- C1: starting from the empty `SparseSet`, after every sequence of
`insert` / `remove` operations that completes without panicking, the dense
value sequence and the key sequence have equal length, the back-pointer
table maps every stored key `indices[j]` to `some j`, and every occupied
back-pointer entry `back.get k = some j` has `indices[j] = k`.  Every
intermediate state of a longer sequence is the final state of one of its
prefixes, so this covers the state after every operation. -/
theorem claim1_invariant_after_every_op (V : Type) (ops : List (SparseSetOp V))
    (s2 : SparseSet V) (h : (SparseSet.new V).applyOps ops = some s2) :
    s2.dense.length = s2.indices.length ∧
    (∀ j k, s2.indices[j]? = some k → s2.sparse.get k = some j) ∧
    (∀ k j, s2.sparse.get k = some j → s2.indices[j]? = some k) := by
  have hwf := (SparseSet.new V).wf_applyOps SparseSet.wf_new ops s2 h
  exact ⟨hwf.len_eq, hwf.idx_to_sparse, hwf.sparse_to_idx⟩

theorem claim1_invariant_after_every_op_witness :
    ((SparseSet.new Nat).applyOps
        [SparseSetOp.ins 0 10, SparseSetOp.ins 1 11, SparseSetOp.rem 0,
          SparseSetOp.ins 5 12] =
      some ⟨[11, 12], [1, 5], ⟨[none, some 0, none, none, none, some 1]⟩⟩) ∧
    ((⟨[11, 12], [1, 5], ⟨[none, some 0, none, none, none, some 1]⟩⟩ :
        SparseSet Nat).dense.length =
      (⟨[11, 12], [1, 5], ⟨[none, some 0, none, none, none, some 1]⟩⟩ :
        SparseSet Nat).indices.length ∧
    (∀ j k, (⟨[11, 12], [1, 5], ⟨[none, some 0, none, none, none, some 1]⟩⟩ :
        SparseSet Nat).indices[j]? = some k →
      (⟨[11, 12], [1, 5], ⟨[none, some 0, none, none, none, some 1]⟩⟩ :
        SparseSet Nat).sparse.get k = some j) ∧
    (∀ k j, (⟨[11, 12], [1, 5], ⟨[none, some 0, none, none, none, some 1]⟩⟩ :
        SparseSet Nat).sparse.get k = some j →
      (⟨[11, 12], [1, 5], ⟨[none, some 0, none, none, none, some 1]⟩⟩ :
        SparseSet Nat).indices[j]? = some k)) :=
  ⟨rfl, claim1_invariant_after_every_op Nat
    [SparseSetOp.ins 0 10, SparseSetOp.ins 1 11, SparseSetOp.rem 0,
      SparseSetOp.ins 5 12] _ rfl⟩

/-- C7: freezing a `SparseSet` through `into_immutable` gives a structure
whose `get`, `contains` and `len` agree with the mutable set's for every
key. -/
theorem claim7_freeze_preserves_reads (V : Type) (s : SparseSet V) (k : Nat) :
    s.intoImmutable.get k = s.get k ∧
    s.intoImmutable.contains k = s.contains k ∧
    s.intoImmutable.len = s.len :=
  ⟨rfl, rfl, rfl⟩

/-- C8: on a `SparseArray`, an absent or out-of-range key makes `get`,
`get_mut` and `remove` all return `None` and `contains` return `false` —
all four are total functions of the model, so no panic is possible — and on
an occupied key `remove` takes and returns the stored value and leaves the
slot empty, so a second `remove` of the same key returns `None`. -/
theorem claim8_sparse_array_absence (a : SparseArray Nat) (k : Nat) :
    (a.get k = none →
      a.getMut k = none ∧ a.contains k = false ∧
      (a.remove k).1 = none ∧ (a.remove k).2 = a) ∧
    (∀ v, a.get k = some v →
      (a.remove k).1 = some v ∧ (a.remove k).2.get k = none ∧
      ((a.remove k).2.remove k).1 = none ∧
      (a.remove k).2.contains k = false) := by
  constructor
  · intro h
    refine ⟨?_, ?_, ?_, a.remove_absent_noop k h⟩
    · rw [a.get_eq_getMut k]
      exact h
    · rw [a.contains_eq_isSome_get, h]
      rfl
    · rw [a.fst_remove]
      exact h
  · intro v h
    refine ⟨?_, a.get_remove_self k, ?_, ?_⟩
    · rw [a.fst_remove]
      exact h
    · rw [SparseArray.fst_remove, a.get_remove_self k]
    · rw [SparseArray.contains_eq_isSome_get, a.get_remove_self k]
      rfl

theorem claim8_sparse_array_absence_witness :
    ((⟨[some 7, none]⟩ : SparseArray Nat).get 1 = none) ∧
    ((⟨[some 7, none]⟩ : SparseArray Nat).getMut 1 = none ∧
      (⟨[some 7, none]⟩ : SparseArray Nat).contains 1 = false ∧
      ((⟨[some 7, none]⟩ : SparseArray Nat).remove 1).1 = none ∧
      ((⟨[some 7, none]⟩ : SparseArray Nat).remove 1).2 = ⟨[some 7, none]⟩) ∧
    ((⟨[some 7, none]⟩ : SparseArray Nat).get 0 = some 7) ∧
    (((⟨[some 7, none]⟩ : SparseArray Nat).remove 0).1 = some 7 ∧
      ((⟨[some 7, none]⟩ : SparseArray Nat).remove 0).2.get 0 = none ∧
      (((⟨[some 7, none]⟩ : SparseArray Nat).remove 0).2.remove 0).1 = none ∧
      ((⟨[some 7, none]⟩ : SparseArray Nat).remove 0).2.contains 0 = false) :=
  ⟨rfl, (claim8_sparse_array_absence ⟨[some 7, none]⟩ 1).1 rfl, rfl,
    (claim8_sparse_array_absence ⟨[some 7, none]⟩ 0).2 7 rfl⟩

/-- C9: `SparseSet::insert` never panics on a present key, nor on an absent
key while the dense length is below the `usize::MAX` sentinel reserved by
`NonMaxUsize` to mean "no value"; inserting a new key when the dense length
equals the sentinel is the unconditional `unwrap` failure, and under the
precondition that the length stays below the sentinel that failure branch is
unreachable. -/
theorem claim9_insert_sentinel (s : SparseSet Nat) (k v : Nat) :
    (s.sparse.get k = none → s.dense.length = usizeMax → s.insert k v = none) ∧
    (s.dense.length < usizeMax → (s.insert k v).isSome) ∧
    (∀ j, s.sparse.get k = some j → (s.insert k v).isSome) := by
  refine ⟨fun hk hlen => s.insert_overflow k hk v hlen, ?_, ?_⟩
  · intro hlen
    cases hk : s.sparse.get k with
    | some j =>
      rw [s.insert_present_spec k j hk v]
      rfl
    | none =>
      rw [s.insert_absent_spec k hk v (by omega)]
      rfl
  · intro j hk
    rw [s.insert_present_spec k j hk v]
    rfl

theorem claim9_insert_sentinel_witness :
    ((⟨List.replicate usizeMax 0, List.replicate usizeMax 0, ⟨[]⟩⟩ :
        SparseSet Nat).sparse.get 7 = none) ∧
    ((⟨List.replicate usizeMax 0, List.replicate usizeMax 0, ⟨[]⟩⟩ :
        SparseSet Nat).dense.length = usizeMax) ∧
    ((⟨List.replicate usizeMax 0, List.replicate usizeMax 0, ⟨[]⟩⟩ :
        SparseSet Nat).insert 7 9 = none) ∧
    ((⟨[5], [3], ⟨[none, none, none, some 0]⟩⟩ :
        SparseSet Nat).dense.length < usizeMax) ∧
    (((⟨[5], [3], ⟨[none, none, none, some 0]⟩⟩ :
        SparseSet Nat).insert 7 9).isSome) :=
  ⟨rfl, List.length_replicate usizeMax 0,
    (claim9_insert_sentinel _ 7 9).1 rfl (List.length_replicate usizeMax 0),
    by decide,
    (claim9_insert_sentinel _ 7 9).2.1 (by decide)⟩

/-- C2: under the structural invariant, removing a key present at dense
position `j` swaps the value and key at `j` with those at the last position
(`dense.len() - 1`) and truncates both sequences by one, returns the removed
value, updates the back-pointer of the key moved into position `j` to point
at `j` unless the removed slot was already the last (in which case the
back-pointer table is exactly the table after taking out the removed key —
no fixup is attempted), and afterwards the displaced former-tail entry is
retrievable by its own key at its new position `j`. -/
theorem claim2_remove_swap_remove (V : Type) (s : SparseSet V)
    (hwf : SparseSetWF s) (k j : Nat) (hk : s.sparse.get k = some j) :
    ∃ v last kLast s2,
      s.dense[j]? = some v ∧
      s.dense[s.dense.length - 1]? = some last ∧
      s.indices[s.dense.length - 1]? = some kLast ∧
      s.remove k = some (some v, s2) ∧
      s2.dense = (s.dense.set j last).dropLast ∧
      s2.indices = (s.indices.set j kLast).dropLast ∧
      s2.dense.length = s.dense.length - 1 ∧
      s2.indices.length = s.dense.length - 1 ∧
      (j ≠ s.dense.length - 1 →
        s2.sparse.get kLast = some j ∧ s2.get kLast = some last) ∧
      (j = s.dense.length - 1 → s2.sparse = (s.sparse.remove k).2) := by
  have hjlt : j < s.dense.length := hwf.idx_lt hk
  have hjlt' : j < s.indices.length := by rw [← hwf.len_eq]; exact hjlt
  obtain ⟨v, last, kLast, s2, hdv, hdlast, hilast, hrm, hdlen, hilen, hdget,
    higet, hspk, hfix, hframe, hlastc⟩ := s.remove_present_spec hwf k j hk
  have hdense : s2.dense = (s.dense.set j last).dropLast := by
    apply List.ext_getElem?
    intro n
    rw [hdget n, List.dropLast_eq_take, List.length_set, List.getElem?_take,
      List.getElem?_set]
    by_cases h1 : n < s.dense.length - 1
    · rw [if_pos h1, if_pos h1]
      by_cases h2 : n = j
      · subst h2
        rw [if_pos rfl, if_pos rfl, if_pos hjlt]
      · rw [if_neg h2, if_neg (fun hh => h2 hh.symm)]
    · rw [if_neg h1, if_neg h1]
  have hindices : s2.indices = (s.indices.set j kLast).dropLast := by
    apply List.ext_getElem?
    intro n
    rw [higet n, List.dropLast_eq_take, List.length_set, List.getElem?_take,
      List.getElem?_set, ← hwf.len_eq]
    by_cases h1 : n < s.dense.length - 1
    · rw [if_pos h1, if_pos h1]
      by_cases h2 : n = j
      · subst h2
        rw [if_pos rfl, if_pos rfl, if_pos hjlt]
      · rw [if_neg h2, if_neg (fun hh => h2 hh.symm)]
    · rw [if_neg h1, if_neg h1]
  refine ⟨v, last, kLast, s2, hdv, hdlast, hilast, hrm, hdense, hindices,
    hdlen, hilen, ?_, fun he => (hlastc he).2⟩
  intro hne
  refine ⟨hfix hne, ?_⟩
  show (s2.sparse.get kLast).bind _ = some last
  rw [hfix hne]
  simp only [Option.some_bind]
  rw [hdget j, if_pos (by omega), if_pos rfl]

theorem claim2_remove_swap_remove_witness :
    SparseSetWF (⟨[10, 11], [0, 1], ⟨[some 0, some 1]⟩⟩ : SparseSet Nat) ∧
    (⟨[10, 11], [0, 1], ⟨[some 0, some 1]⟩⟩ :
        SparseSet Nat).sparse.get 0 = some 0 ∧
    (∃ v last kLast s2,
      (⟨[10, 11], [0, 1], ⟨[some 0, some 1]⟩⟩ :
          SparseSet Nat).dense[0]? = some v ∧
      (⟨[10, 11], [0, 1], ⟨[some 0, some 1]⟩⟩ : SparseSet Nat).dense[
        (⟨[10, 11], [0, 1], ⟨[some 0, some 1]⟩⟩ :
          SparseSet Nat).dense.length - 1]? = some last ∧
      (⟨[10, 11], [0, 1], ⟨[some 0, some 1]⟩⟩ : SparseSet Nat).indices[
        (⟨[10, 11], [0, 1], ⟨[some 0, some 1]⟩⟩ :
          SparseSet Nat).dense.length - 1]? = some kLast ∧
      (⟨[10, 11], [0, 1], ⟨[some 0, some 1]⟩⟩ :
          SparseSet Nat).remove 0 = some (some v, s2) ∧
      s2.dense = ((⟨[10, 11], [0, 1], ⟨[some 0, some 1]⟩⟩ :
          SparseSet Nat).dense.set 0 last).dropLast ∧
      s2.indices = ((⟨[10, 11], [0, 1], ⟨[some 0, some 1]⟩⟩ :
          SparseSet Nat).indices.set 0 kLast).dropLast ∧
      s2.dense.length = (⟨[10, 11], [0, 1], ⟨[some 0, some 1]⟩⟩ :
          SparseSet Nat).dense.length - 1 ∧
      s2.indices.length = (⟨[10, 11], [0, 1], ⟨[some 0, some 1]⟩⟩ :
          SparseSet Nat).dense.length - 1 ∧
      (0 ≠ (⟨[10, 11], [0, 1], ⟨[some 0, some 1]⟩⟩ :
          SparseSet Nat).dense.length - 1 →
        s2.sparse.get kLast = some 0 ∧ s2.get kLast = some last) ∧
      (0 = (⟨[10, 11], [0, 1], ⟨[some 0, some 1]⟩⟩ :
          SparseSet Nat).dense.length - 1 →
        s2.sparse = ((⟨[10, 11], [0, 1], ⟨[some 0, some 1]⟩⟩ :
          SparseSet Nat).sparse.remove 0).2)) :=
  ⟨(SparseSet.new Nat).wf_applyOps SparseSet.wf_new
      [SparseSetOp.ins 0 10, SparseSetOp.ins 1 11] _ rfl, rfl,
    claim2_remove_swap_remove Nat _
      ((SparseSet.new Nat).wf_applyOps SparseSet.wf_new
        [SparseSetOp.ins 0 10, SparseSetOp.ins 1 11] _ rfl) 0 0 rfl⟩

/-- C4: under the structural invariant, inserting at a key already present
at dense position `j` overwrites the dense slot in place: the dense sequence
becomes `dense.set j v` with unchanged length, the key sequence and the
back-pointer table are unchanged, the key now reads the new value, and every
other key still reads its previous value at its previous position. -/
theorem claim4_insert_present_overwrites (V : Type) (s : SparseSet V)
    (hwf : SparseSetWF s) (k j : Nat) (hk : s.sparse.get k = some j) (v : V) :
    ∃ s2, s.insert k v = some s2 ∧
      s2.dense = s.dense.set j v ∧
      s2.dense.length = s.dense.length ∧
      s2.indices = s.indices ∧
      s2.sparse = s.sparse ∧
      s2.get k = some v ∧
      (∀ k2, k2 ≠ k → s2.get k2 = s.get k2) := by
  refine ⟨⟨s.dense.set j v, s.indices, s.sparse⟩,
    s.insert_present_spec k j hk v, rfl, ?_, rfl, rfl, ?_, ?_⟩
  · show (s.dense.set j v).length = s.dense.length
    exact List.length_set ..
  · show (s.sparse.get k).bind _ = some v
    rw [hk]
    simp only [Option.some_bind]
    exact List.getElem?_set_self (hwf.idx_lt hk)
  · exact s.get_insert_present_frame hwf k j hk v

theorem claim4_insert_present_overwrites_witness :
    SparseSetWF (⟨[10, 11], [0, 1], ⟨[some 0, some 1]⟩⟩ : SparseSet Nat) ∧
    (⟨[10, 11], [0, 1], ⟨[some 0, some 1]⟩⟩ :
        SparseSet Nat).sparse.get 0 = some 0 ∧
    (∃ s2, (⟨[10, 11], [0, 1], ⟨[some 0, some 1]⟩⟩ :
          SparseSet Nat).insert 0 99 = some s2 ∧
      s2.dense = (⟨[10, 11], [0, 1], ⟨[some 0, some 1]⟩⟩ :
          SparseSet Nat).dense.set 0 99 ∧
      s2.dense.length = (⟨[10, 11], [0, 1], ⟨[some 0, some 1]⟩⟩ :
          SparseSet Nat).dense.length ∧
      s2.indices = (⟨[10, 11], [0, 1], ⟨[some 0, some 1]⟩⟩ :
          SparseSet Nat).indices ∧
      s2.sparse = (⟨[10, 11], [0, 1], ⟨[some 0, some 1]⟩⟩ :
          SparseSet Nat).sparse ∧
      s2.get 0 = some 99 ∧
      (∀ k2, k2 ≠ 0 → s2.get k2 =
        (⟨[10, 11], [0, 1], ⟨[some 0, some 1]⟩⟩ : SparseSet Nat).get k2)) :=
  ⟨(SparseSet.new Nat).wf_applyOps SparseSet.wf_new
      [SparseSetOp.ins 0 10, SparseSetOp.ins 1 11] _ rfl, rfl,
    claim4_insert_present_overwrites Nat _
      ((SparseSet.new Nat).wf_applyOps SparseSet.wf_new
        [SparseSetOp.ins 0 10, SparseSetOp.ins 1 11] _ rfl) 0 0 rfl 99⟩

/-- C5: under the structural invariant, for a key not currently present and
dense length below the sentinel, `insert(k, v)` succeeds and `get(k)`
returns the value; then `remove(k)` returns the value; afterwards `get(k)`
is `None` and `contains(k)` is `false`. -/
theorem claim5_round_trip (V : Type) (s : SparseSet V) (hwf : SparseSetWF s)
    (k : Nat) (v : V) (habs : s.sparse.get k = none)
    (hlen : s.dense.length < usizeMax) :
    ∃ s2 s3, s.insert k v = some s2 ∧ s2.get k = some v ∧
      s2.contains k = true ∧ s2.remove k = some (some v, s3) ∧
      s3.get k = none ∧ s3.contains k = false := by
  have hne : s.dense.length ≠ usizeMax := by omega
  have hins := s.insert_absent_spec k habs v hne
  have hwf2 : SparseSetWF (⟨s.dense ++ [v], s.indices ++ [k],
      s.sparse.insert k s.dense.length⟩ : SparseSet V) :=
    s.wf_insert hwf k v _ hins
  have hk2 : (⟨s.dense ++ [v], s.indices ++ [k],
      s.sparse.insert k s.dense.length⟩ : SparseSet V).sparse.get k =
      some s.dense.length := SparseArray.get_insert_self s.sparse k _
  obtain ⟨v2, last, kLast, s3, hdv2, -, -, hrm, -, -, -, -, hspk, -⟩ :=
    SparseSet.remove_present_spec _ hwf2 k s.dense.length hk2
  have hv2 : v2 = v := by
    have : (s.dense ++ [v])[s.dense.length]? = some v :=
      List.getElem?_concat_length s.dense v
    rw [this] at hdv2
    exact (Option.some_inj.mp hdv2).symm
  rw [hv2] at hrm
  refine ⟨_, s3, hins, ?_, ?_, hrm, ?_, ?_⟩
  · show ((⟨s.dense ++ [v], s.indices ++ [k],
        s.sparse.insert k s.dense.length⟩ : SparseSet V).sparse.get k).bind
      _ = some v
    rw [hk2]
    simp only [Option.some_bind]
    exact List.getElem?_concat_length s.dense v
  · show ((⟨s.dense ++ [v], s.indices ++ [k],
        s.sparse.insert k s.dense.length⟩ : SparseSet V).sparse.contains k) = true
    rw [SparseArray.contains_eq_isSome_get, hk2]
    rfl
  · show (s3.sparse.get k).bind _ = none
    rw [hspk]
    rfl
  · show s3.sparse.contains k = false
    rw [SparseArray.contains_eq_isSome_get, hspk]
    rfl

theorem claim5_round_trip_witness :
    SparseSetWF (⟨[11], [1], ⟨[none, some 0]⟩⟩ : SparseSet Nat) ∧
    (⟨[11], [1], ⟨[none, some 0]⟩⟩ : SparseSet Nat).sparse.get 3 = none ∧
    (⟨[11], [1], ⟨[none, some 0]⟩⟩ : SparseSet Nat).dense.length < usizeMax ∧
    (∃ s2 s3, (⟨[11], [1], ⟨[none, some 0]⟩⟩ :
          SparseSet Nat).insert 3 7 = some s2 ∧
      s2.get 3 = some 7 ∧ s2.contains 3 = true ∧
      s2.remove 3 = some (some 7, s3) ∧
      s3.get 3 = none ∧ s3.contains 3 = false) :=
  ⟨(SparseSet.new Nat).wf_applyOps SparseSet.wf_new [SparseSetOp.ins 1 11] _
      rfl, rfl, by decide,
    claim5_round_trip Nat _
      ((SparseSet.new Nat).wf_applyOps SparseSet.wf_new [SparseSetOp.ins 1 11]
        _ rfl) 3 7 rfl (by decide)⟩

/-- C3: under the structural invariant, `ComponentSparseSet::remove` and
`remove_and_forget` both perform the swap-remove algorithm: they take the
entity's back-pointer entry out of `sparse`, swap-remove the entity's row
from the `entities` list and from the dense column, and when the removed row
was not the last they fix up the back-pointer entry of the entity whose row
was moved into the vacated dense position; `remove` returns `true` exactly
when the entity had a value, `remove_and_forget` returns the raw value
handle exactly when the entity had a value, both leave the same state, and
every other entity that was present reads the same value afterwards. -/
theorem claim3_component_swap_remove (V : Type) (t : ComponentSparseSet V)
    (hwf : ComponentSparseSetWF t) (e : Nat) :
    ∃ t2 : ComponentSparseSet V,
      t.remove e = some ((t.sparse.get e).isSome, t2) ∧
      t.removeAndForget e = some (t.get e, t2) ∧
      ((t.get e).isSome ↔ (t.sparse.get e).isSome) ∧
      (∀ e2, e2 ≠ e → t2.get e2 = t.get e2) ∧
      t2.sparse.get e = none ∧
      (∀ i, t.sparse.get e = some i →
        (listSwapRemove t.entities i).map Prod.snd = some t2.entities ∧
        (listSwapRemove t.dense.rows i).map Prod.snd = some t2.dense.rows ∧
        (i ≠ t.dense.rows.length - 1 → ∀ eL,
          t.entities[t.dense.rows.length - 1]? = some eL →
          t2.sparse.get eL = some i)) := by
  obtain ⟨t2, hrem, hforget, hfr, hsp, hpres⟩ := t.remove_spec hwf e
  refine ⟨t2, hrem, hforget, ?_, hfr, hsp, ?_⟩
  · constructor
    · intro hg
      cases hk : t.sparse.get e with
      | some i => rfl
      | none =>
        unfold ComponentSparseSet.get at hg
        rw [hk] at hg
        cases hg
    · intro hg
      cases hk : t.sparse.get e with
      | none => rw [hk] at hg; cases hg
      | some i =>
        have hilt : i < t.dense.rows.length := SparseSetWF.idx_lt hwf hk
        unfold ComponentSparseSet.get
        rw [hk]
        simp only [Option.some_bind]
        rw [List.getElem?_eq_getElem hilt]
        rfl
  · intro i hi
    obtain ⟨hdlen, hilen, hdget, higet, hfixup⟩ := hpres i hi
    have hilt : i < t.dense.rows.length := SparseSetWF.idx_lt hwf hi
    have hilt' : i < t.entities.length := by
      have h := hwf.len_eq
      have h2 : t.toSparseSet.dense.length = t.dense.rows.length := rfl
      have h3 : t.toSparseSet.indices.length = t.entities.length := rfl
      omega
    refine ⟨?_, ?_, hfixup⟩
    · obtain ⟨v0, lastE, l2, -, hlastE, hsw, hlen2, hget2⟩ :=
        listSwapRemove_spec t.entities i hilt'
      rw [hsw, Option.map_some']
      have hentlen : t.entities.length = t.dense.rows.length := hwf.len_eq.symm
      have : l2 = t2.entities := by
        apply List.ext_getElem?
        intro n
        rw [hget2 n, higet n, hentlen]
        by_cases h1 : n < t.dense.rows.length - 1
        · rw [if_pos h1, if_pos h1]
          by_cases h2 : n = i
          · subst h2
            rw [if_pos rfl, if_pos rfl, ← hlastE, hentlen]
          · rw [if_neg h2, if_neg h2]
        · rw [if_neg h1, if_neg h1]
      rw [this]
    · obtain ⟨v0, lastD, l2, -, hlastD, hsw, hlen2, hget2⟩ :=
        listSwapRemove_spec t.dense.rows i hilt
      rw [hsw, Option.map_some']
      have : l2 = t2.dense.rows := by
        apply List.ext_getElem?
        intro n
        rw [hget2 n, hdget n]
        by_cases h1 : n < t.dense.rows.length - 1
        · rw [if_pos h1, if_pos h1]
          by_cases h2 : n = i
          · subst h2
            rw [if_pos rfl, if_pos rfl, ← hlastD]
          · rw [if_neg h2, if_neg h2]
        · rw [if_neg h1, if_neg h1]
      rw [this]

theorem claim3_component_swap_remove_witness :
    ComponentSparseSetWF (⟨⟨[10, 11]⟩, [0, 1], ⟨[some 0, some 1]⟩⟩ :
      ComponentSparseSet Nat) ∧
    (∃ t2 : ComponentSparseSet Nat,
      (⟨⟨[10, 11]⟩, [0, 1], ⟨[some 0, some 1]⟩⟩ :
          ComponentSparseSet Nat).remove 0 =
        some (((⟨⟨[10, 11]⟩, [0, 1], ⟨[some 0, some 1]⟩⟩ :
          ComponentSparseSet Nat).sparse.get 0).isSome, t2) ∧
      (⟨⟨[10, 11]⟩, [0, 1], ⟨[some 0, some 1]⟩⟩ :
          ComponentSparseSet Nat).removeAndForget 0 =
        some ((⟨⟨[10, 11]⟩, [0, 1], ⟨[some 0, some 1]⟩⟩ :
          ComponentSparseSet Nat).get 0, t2) ∧
      (((⟨⟨[10, 11]⟩, [0, 1], ⟨[some 0, some 1]⟩⟩ :
          ComponentSparseSet Nat).get 0).isSome ↔
        ((⟨⟨[10, 11]⟩, [0, 1], ⟨[some 0, some 1]⟩⟩ :
          ComponentSparseSet Nat).sparse.get 0).isSome) ∧
      (∀ e2, e2 ≠ 0 → t2.get e2 = (⟨⟨[10, 11]⟩, [0, 1],
          ⟨[some 0, some 1]⟩⟩ : ComponentSparseSet Nat).get e2) ∧
      t2.sparse.get 0 = none ∧
      (∀ i, (⟨⟨[10, 11]⟩, [0, 1], ⟨[some 0, some 1]⟩⟩ :
          ComponentSparseSet Nat).sparse.get 0 = some i →
        (listSwapRemove (⟨⟨[10, 11]⟩, [0, 1], ⟨[some 0, some 1]⟩⟩ :
          ComponentSparseSet Nat).entities i).map Prod.snd = some t2.entities ∧
        (listSwapRemove (⟨⟨[10, 11]⟩, [0, 1], ⟨[some 0, some 1]⟩⟩ :
          ComponentSparseSet Nat).dense.rows i).map Prod.snd =
            some t2.dense.rows ∧
        (i ≠ (⟨⟨[10, 11]⟩, [0, 1], ⟨[some 0, some 1]⟩⟩ :
            ComponentSparseSet Nat).dense.rows.length - 1 → ∀ eL,
          (⟨⟨[10, 11]⟩, [0, 1], ⟨[some 0, some 1]⟩⟩ :
            ComponentSparseSet Nat).entities[
              (⟨⟨[10, 11]⟩, [0, 1], ⟨[some 0, some 1]⟩⟩ :
                ComponentSparseSet Nat).dense.rows.length - 1]? = some eL →
          t2.sparse.get eL = some i))) :=
  ⟨(SparseSet.new Nat).wf_applyOps SparseSet.wf_new
      [SparseSetOp.ins 0 10, SparseSetOp.ins 1 11] _ rfl,
    claim3_component_swap_remove Nat ⟨⟨[10, 11]⟩, [0, 1], ⟨[some 0, some 1]⟩⟩
      ((SparseSet.new Nat).wf_applyOps SparseSet.wf_new
        [SparseSetOp.ins 0 10, SparseSetOp.ins 1 11] _ rfl) 0⟩

/-- C6: `get_or_insert_with` on a present key returns the existing value and
leaves both the set and the producer state untouched, for every producer —
the producer (modelled as an explicit state transformer so invocations are
countable) is not invoked.  On an absent key (with the dense length away
from the sentinel so the recorded position's `unwrap` succeeds) it applies
the producer exactly once — the state advances by exactly one application —
inserts its result exactly as `insert` would, and returns the newly inserted
value. -/
theorem claim6_get_or_insert_with (V S : Type) (s : SparseSet V)
    (hwf : SparseSetWF s) (k : Nat) (func : S → V × S) (st : S) :
    (∀ j, s.sparse.get k = some j → ∃ v, s.dense[j]? = some v ∧
      s.get k = some v ∧
      ∀ func2 : S → V × S, ∀ st2 : S,
        s.getOrInsertWith k func2 st2 = some (v, s, st2)) ∧
    (s.sparse.get k = none → s.dense.length ≠ usizeMax →
      ∃ s2, s.getOrInsertWith k func st = some ((func st).1, s2, (func st).2) ∧
        s.insert k (func st).1 = some s2 ∧
        s2.get k = some (func st).1) := by
  constructor
  · intro j hj
    obtain ⟨v, hv, -⟩ := s.getOrInsertWith_present_spec hwf k j hj func st
    refine ⟨v, hv, ?_, ?_⟩
    · show (s.sparse.get k).bind _ = some v
      rw [hj]
      simp only [Option.some_bind]
      exact hv
    · intro func2 st2
      obtain ⟨v2, hv2, hgo2⟩ :=
        s.getOrInsertWith_present_spec hwf k j hj func2 st2
      rw [hv] at hv2
      obtain rfl := Option.some_inj.mp hv2
      exact hgo2
  · intro habs hlen
    refine ⟨⟨s.dense ++ [(func st).1], s.indices ++ [k],
        s.sparse.insert k s.dense.length⟩,
      s.getOrInsertWith_absent_spec k habs func st hlen,
      s.insert_absent_spec k habs (func st).1 hlen, ?_⟩
    show ((s.sparse.insert k s.dense.length).get k).bind _ = _
    rw [SparseArray.get_insert_self]
    simp only [Option.some_bind]
    exact List.getElem?_concat_length s.dense (func st).1

theorem claim6_get_or_insert_with_witness :
    SparseSetWF (⟨[11], [1], ⟨[none, some 0]⟩⟩ : SparseSet Nat) ∧
    ((∀ j, (⟨[11], [1], ⟨[none, some 0]⟩⟩ :
          SparseSet Nat).sparse.get 1 = some j →
      ∃ v, (⟨[11], [1], ⟨[none, some 0]⟩⟩ : SparseSet Nat).dense[j]? = some v ∧
        (⟨[11], [1], ⟨[none, some 0]⟩⟩ : SparseSet Nat).get 1 = some v ∧
        ∀ func2 : Nat → Nat × Nat, ∀ st2 : Nat,
          (⟨[11], [1], ⟨[none, some 0]⟩⟩ :
            SparseSet Nat).getOrInsertWith 1 func2 st2 =
              some (v, ⟨[11], [1], ⟨[none, some 0]⟩⟩, st2)) ∧
    ((⟨[11], [1], ⟨[none, some 0]⟩⟩ : SparseSet Nat).sparse.get 1 = none →
      (⟨[11], [1], ⟨[none, some 0]⟩⟩ :
        SparseSet Nat).dense.length ≠ usizeMax →
      ∃ s2, (⟨[11], [1], ⟨[none, some 0]⟩⟩ :
          SparseSet Nat).getOrInsertWith 1 (fun n => (n + 100, n + 1)) 0 =
            some ((0 + 100, s2, 0 + 1).1, s2, (0 + 100, 0 + 1).2) ∧
        (⟨[11], [1], ⟨[none, some 0]⟩⟩ :
          SparseSet Nat).insert 1 (0 + 100) = some s2 ∧
        s2.get 1 = some (0 + 100))) :=
  ⟨(SparseSet.new Nat).wf_applyOps SparseSet.wf_new [SparseSetOp.ins 1 11] _
      rfl,
    claim6_get_or_insert_with Nat Nat _
      ((SparseSet.new Nat).wf_applyOps SparseSet.wf_new [SparseSetOp.ins 1 11]
        _ rfl) 1 (fun n => (n + 100, n + 1)) 0⟩

/-- C10: under the structural invariant, an occupied back-pointer entry
always designates a dense position strictly below the dense length, for both
`SparseSet` and `ComponentSparseSet` — so the dense sequence is non-empty,
`dense.len() - 1` cannot underflow, and the unchecked dense accesses of
`get`, `get_mut` and the swap-remove are in bounds — and `remove` /
`remove_and_forget` never reach any of their modelled panic points (the
swap-remove bounds checks and the back-pointer fixup `get_mut(..).unwrap()`
for the swapped key): they always return a result. -/
theorem claim10_no_panics (V : Type) (s : SparseSet V)
    (t : ComponentSparseSet V) (k e : Nat) :
    (∀ j, SparseSetWF s → s.sparse.get k = some j →
      0 < s.dense.length ∧ j < s.dense.length) ∧
    (SparseSetWF s → (s.remove k).isSome) ∧
    (∀ i, ComponentSparseSetWF t → t.sparse.get e = some i →
      0 < t.dense.rows.length ∧ i < t.dense.rows.length) ∧
    (ComponentSparseSetWF t → (t.remove e).isSome ∧
      (t.removeAndForget e).isSome) := by
  refine ⟨?_, ?_, ?_, ?_⟩
  · intro j hwf hk
    have h := hwf.idx_lt hk
    exact ⟨by omega, h⟩
  · intro hwf
    exact s.remove_isSome hwf k
  · intro i hwf hi
    have h : i < t.dense.rows.length := SparseSetWF.idx_lt hwf hi
    exact ⟨by omega, h⟩
  · intro hwf
    obtain ⟨t2, h1, h2, -⟩ := t.remove_spec hwf e
    constructor
    · rw [h1]
      rfl
    · rw [h2]
      rfl

theorem claim10_no_panics_witness :
    SparseSetWF (⟨[10, 11], [0, 1], ⟨[some 0, some 1]⟩⟩ : SparseSet Nat) ∧
    (⟨[10, 11], [0, 1], ⟨[some 0, some 1]⟩⟩ :
      SparseSet Nat).sparse.get 0 = some 0 ∧
    ComponentSparseSetWF (⟨⟨[10, 11]⟩, [0, 1], ⟨[some 0, some 1]⟩⟩ :
      ComponentSparseSet Nat) ∧
    (⟨⟨[10, 11]⟩, [0, 1], ⟨[some 0, some 1]⟩⟩ :
      ComponentSparseSet Nat).sparse.get 0 = some 0 ∧
    (0 < (⟨[10, 11], [0, 1], ⟨[some 0, some 1]⟩⟩ :
        SparseSet Nat).dense.length ∧
      0 < (⟨[10, 11], [0, 1], ⟨[some 0, some 1]⟩⟩ :
        SparseSet Nat).dense.length) ∧
    ((⟨[10, 11], [0, 1], ⟨[some 0, some 1]⟩⟩ :
      SparseSet Nat).remove 0).isSome ∧
    (0 < (⟨⟨[10, 11]⟩, [0, 1], ⟨[some 0, some 1]⟩⟩ :
        ComponentSparseSet Nat).dense.rows.length ∧
      0 < (⟨⟨[10, 11]⟩, [0, 1], ⟨[some 0, some 1]⟩⟩ :
        ComponentSparseSet Nat).dense.rows.length) ∧
    (((⟨⟨[10, 11]⟩, [0, 1], ⟨[some 0, some 1]⟩⟩ :
        ComponentSparseSet Nat).remove 0).isSome ∧
      ((⟨⟨[10, 11]⟩, [0, 1], ⟨[some 0, some 1]⟩⟩ :
        ComponentSparseSet Nat).removeAndForget 0).isSome) :=
  ⟨(SparseSet.new Nat).wf_applyOps SparseSet.wf_new
      [SparseSetOp.ins 0 10, SparseSetOp.ins 1 11] _ rfl, rfl,
    (SparseSet.new Nat).wf_applyOps SparseSet.wf_new
      [SparseSetOp.ins 0 10, SparseSetOp.ins 1 11] _ rfl, rfl,
    (claim10_no_panics Nat ⟨[10, 11], [0, 1], ⟨[some 0, some 1]⟩⟩
      ⟨⟨[10, 11]⟩, [0, 1], ⟨[some 0, some 1]⟩⟩ 0 0).1 0
      ((SparseSet.new Nat).wf_applyOps SparseSet.wf_new
        [SparseSetOp.ins 0 10, SparseSetOp.ins 1 11] _ rfl) rfl,
    (claim10_no_panics Nat ⟨[10, 11], [0, 1], ⟨[some 0, some 1]⟩⟩
      ⟨⟨[10, 11]⟩, [0, 1], ⟨[some 0, some 1]⟩⟩ 0 0).2.1
      ((SparseSet.new Nat).wf_applyOps SparseSet.wf_new
        [SparseSetOp.ins 0 10, SparseSetOp.ins 1 11] _ rfl),
    (claim10_no_panics Nat ⟨[10, 11], [0, 1], ⟨[some 0, some 1]⟩⟩
      ⟨⟨[10, 11]⟩, [0, 1], ⟨[some 0, some 1]⟩⟩ 0 0).2.2.1 0
      ((SparseSet.new Nat).wf_applyOps SparseSet.wf_new
        [SparseSetOp.ins 0 10, SparseSetOp.ins 1 11] _ rfl) rfl,
    (claim10_no_panics Nat ⟨[10, 11], [0, 1], ⟨[some 0, some 1]⟩⟩
      ⟨⟨[10, 11]⟩, [0, 1], ⟨[some 0, some 1]⟩⟩ 0 0).2.2.2
      ((SparseSet.new Nat).wf_applyOps SparseSet.wf_new
        [SparseSetOp.ins 0 10, SparseSetOp.ins 1 11] _ rfl)⟩
